import Mathlib

/-!
Verification of the FlowSphere sequence-execution semantics, a shallow
embedding of `src/flowsphere_mcp/templates/python/base_template.py`
(class `APISequence`).  Python values flowing through the executor are
modelled by the inductive `Value`; Python exceptions by `PyExc`;
fallible code returns `Except PyExc`.  The mutable parts of the
executor object (`self.responses`, `self.user_inputs`, the uuid and
clock sources behind `generate_guid` / `generate_timestamp`) are an
explicit `ExecState` threaded through every operation.
-/

namespace FlowSphere

/-- Python exception classes that the embedded code can raise.  The
`except (KeyError, IndexError, TypeError, ValueError)` clause of
`extract_field` catches the first four; `AttributeError` models calling
a `str` method on a non-string object; `jsonPathError` models the
`JsonPathParserError` / `JsonPathLexerError` that `jsonpath_ng.parse`
raises on malformed JSONPath syntax — bare `Exception` subclasses that
no except-clause of the executor catches. -/
inductive PyExc where
  | keyError
  | indexError
  | typeError
  | valueError
  | attributeError
  | jsonPathError
deriving DecidableEq, Repr

mutual
/-- A parsed JSON-like Python value: `None`, `bool`, `int`, `str`,
`list`, `dict` (string keys, insertion ordered).  Mirrors the values the
executor passes around (configs, substituted bodies, stored responses). -/
inductive Value where
  | none
  | bool (b : Bool)
  | int (n : Int)
  | str (s : String)
  | list (xs : ValueList)
  | dict (kvs : ValueDict)

/-- The elements of a Python list value. -/
inductive ValueList where
  | nil
  | cons (v : Value) (tl : ValueList)

/-- The insertion-ordered entries of a Python dict value. -/
inductive ValueDict where
  | nil
  | cons (k : String) (v : Value) (tl : ValueDict)
end

/-- Python `d[k]` lookup on a dict value, leftmost entry wins (entries are
unique in any dict built by Python, but lookup is total anyway). -/
def dictFind (k : String) : ValueDict → Option Value
  | .nil => Option.none
  | .cons k2 v tl => if k2 = k then Option.some v else dictFind k tl

/-- Python `k in d` membership test on a dict value. -/
def dictHas (k : String) (d : ValueDict) : Bool :=
  (dictFind k d).isSome

/-- Number of entries of a dict value. -/
def dictLen : ValueDict → Nat
  | .nil => 0
  | .cons _ _ tl => dictLen tl + 1

/-- Number of elements of a list value. -/
def listLen : ValueList → Nat
  | .nil => 0
  | .cons _ tl => listLen tl + 1

/-- Zero-based element access on a list value. -/
def listGet : ValueList → Nat → Option Value
  | .nil, _ => Option.none
  | .cons v _, 0 => Option.some v
  | .cons _ tl, n + 1 => listGet tl n

/-- Python `dict.update`: keys already present are overwritten in place
(keeping their original position), new keys are appended in order. -/
def dictSetKey (d : ValueDict) (k : String) (v : Value) : ValueDict :=
  match d with
  | .nil => .cons k v .nil
  | .cons k2 v2 tl =>
      if k2 = k then .cons k2 v tl else .cons k2 v2 (dictSetKey tl k v)

/-- Python `base.update(upd)` over all entries of `upd`, left to right. -/
def dictUpdate (base : ValueDict) : ValueDict → ValueDict
  | .nil => base
  | .cons k v tl => dictUpdate (dictSetKey base k v) tl

/-- Turn a Lean list of values into a `ValueList`. -/
def toValueList : List Value → ValueList
  | [] => .nil
  | v :: tl => .cons v (toValueList tl)

/-- Python `v is None` (identity with the `None` object). -/
def isNoneV : Value → Bool
  | .none => true
  | _ => false

/-- The single-quote character, used by Python `repr` of strings. -/
def sq : Char := Char.ofNat 39

mutual
/-- Python `str()` of a value, as used by the substitution engine and
by the f-strings building validation error messages.  Containers render
through `repr` of their elements, as Python does; the `repr` of a string
is modelled for quote-free text (wrapped in single quotes, no escaping),
which covers every string the executor itself produces. -/
def pyStr : Value → String
  | .none => "None"
  | .bool b => if b then "True" else "False"
  | .int n => toString n
  | .str s => s
  | .list xs => "[" ++ pyStrL xs ++ "]"
  | .dict kvs => "\x7b" ++ pyStrD kvs ++ "\x7d"

/-- Python `repr()` of a value (strings quoted). -/
def pyRepr : Value → String
  | .none => "None"
  | .bool b => if b then "True" else "False"
  | .int n => toString n
  | .str s => String.singleton sq ++ s ++ String.singleton sq
  | .list xs => "[" ++ pyStrL xs ++ "]"
  | .dict kvs => "\x7b" ++ pyStrD kvs ++ "\x7d"
termination_by structural v => v

/-- Comma-separated `repr` of list elements. -/
def pyStrL : ValueList → String
  | .nil => ""
  | .cons v .nil => pyRepr v
  | .cons v tl => pyRepr v ++ ", " ++ pyStrL tl
termination_by structural l => l

/-- Comma-separated `repr(k): repr(v)` of dict entries. -/
def pyStrD : ValueDict → String
  | .nil => ""
  | .cons k v .nil => String.singleton sq ++ k ++ String.singleton sq ++ ": " ++ pyRepr v
  | .cons k v tl =>
      String.singleton sq ++ k ++ String.singleton sq ++ ": " ++ pyRepr v ++ ", " ++ pyStrD tl
termination_by structural d => d
end

mutual
/-- Python `json.dumps` with its default separators, for values whose strings
need no escaping (the executor dumps substituted bodies). -/
def jsonDumps : Value → String
  | .none => "null"
  | .bool b => if b then "true" else "false"
  | .int n => toString n
  | .str s => "\"" ++ s ++ "\""
  | .list xs => "[" ++ jsonDumpsL xs ++ "]"
  | .dict kvs => "\x7b" ++ jsonDumpsD kvs ++ "\x7d"
termination_by structural v => v

/-- Comma-separated dump of list elements. -/
def jsonDumpsL : ValueList → String
  | .nil => ""
  | .cons v .nil => jsonDumps v
  | .cons v tl => jsonDumps v ++ ", " ++ jsonDumpsL tl
termination_by structural l => l

/-- Comma-separated dump of dict entries. -/
def jsonDumpsD : ValueDict → String
  | .nil => ""
  | .cons k v .nil => "\"" ++ k ++ "\": " ++ jsonDumps v
  | .cons k v tl => "\"" ++ k ++ "\": " ++ jsonDumps v ++ ", " ++ jsonDumpsD tl
termination_by structural d => d
end

/-! ### Python value equality

`==` between the values the executor compares.  Python equality is
order-insensitive on dicts and identifies `True`/`False` with `1`/`0`.
The recursion is driven by an explicit fuel bounded by the sizes of the
two operands, which always suffices. -/

mutual
/-- Size measure driving the `pyEq` fuel. -/
def vsize : Value → Nat
  | .list xs => lsize xs + 1
  | .dict kvs => dsize kvs + 1
  | _ => 1

/-- Size of a list value. -/
def lsize : ValueList → Nat
  | .nil => 1
  | .cons v tl => vsize v + lsize tl + 1
termination_by structural l => l

/-- Size of a dict value. -/
def dsize : ValueDict → Nat
  | .nil => 1
  | .cons _ v tl => vsize v + dsize tl + 1
termination_by structural d => d
end

mutual
/-- Fueled Python `==` on values. -/
def pyEqF : Nat → Value → Value → Bool
  | 0, _, _ => false
  | fuel + 1, a, b =>
    match a, b with
    | .none, .none => true
    | .bool x, .bool y => x == y
    | .bool x, .int m => (if x then (1 : Int) else 0) == m
    | .int n, .bool y => n == (if y then (1 : Int) else 0)
    | .int n, .int m => n == m
    | .str s, .str t => s == t
    | .list xs, .list ys => pyEqLF fuel xs ys
    | .dict d1, .dict d2 => dictLen d1 == dictLen d2 && pyEqSubF fuel d1 d2
    | _, _ => false
termination_by structural fuel => fuel

/-- Fueled elementwise `==` on list values. -/
def pyEqLF : Nat → ValueList → ValueList → Bool
  | 0, _, _ => false
  | _ + 1, .nil, .nil => true
  | fuel + 1, .cons v1 t1, .cons v2 t2 => pyEqF fuel v1 v2 && pyEqLF fuel t1 t2
  | _ + 1, _, _ => false
termination_by structural fuel => fuel

/-- Fueled check that every entry of the first dict has an equal entry
in the second (with equal lengths this is dict equality). -/
def pyEqSubF : Nat → ValueDict → ValueDict → Bool
  | 0, _, _ => false
  | _ + 1, .nil, _ => true
  | fuel + 1, .cons k v tl, d2 => pyEqFindF fuel k v d2 && pyEqSubF fuel tl d2
termination_by structural fuel => fuel

/-- Fueled lookup of key `k` in `d2` with a `pyEqF` value comparison. -/
def pyEqFindF : Nat → String → Value → ValueDict → Bool
  | 0, _, _, _ => false
  | _ + 1, _, _, .nil => false
  | fuel + 1, k, v, .cons k2 v2 tl =>
      if k2 == k then pyEqF fuel v v2 else pyEqFindF fuel k v tl
termination_by structural fuel => fuel
end

/-- Python `==` between two executor values. -/
def pyEq (a b : Value) : Bool :=
  pyEqF (vsize a + vsize b) a b

/-! ### Python float coercion (for the numeric condition operators) -/

/-- The result of Python `float(...)`: a finite rational, an infinity,
or `nan`.  Finite doubles are modelled as exact rationals; the executor
only ever compares them, never does arithmetic on them. -/
inductive PyFloat where
  | finite (q : Rat)
  | pinf
  | ninf
  | nan
deriving DecidableEq, Repr

/-- Comparison `<` on modelled floats (`nan` compares false against everything). -/
def pyFloatLt : PyFloat → PyFloat → Bool
  | .nan, _ => false
  | _, .nan => false
  | .finite a, .finite b => a < b
  | .finite _, .pinf => true
  | .finite _, .ninf => false
  | .pinf, _ => false
  | .ninf, .ninf => false
  | .ninf, _ => true

/-- Comparison `==` on modelled floats (`nan` is not equal to itself). -/
def pyFloatEqB : PyFloat → PyFloat → Bool
  | .finite a, .finite b => a == b
  | .pinf, .pinf => true
  | .ninf, .ninf => true
  | _, _ => false

/-- Comparison `<=` on modelled floats. -/
def pyFloatLe (a b : PyFloat) : Bool :=
  pyFloatLt a b || pyFloatEqB a b

/-- Whitespace for Python `str.strip()` and the regex class `\s`. -/
def isPySpace (c : Char) : Bool :=
  c == ' ' || c == Char.ofNat 9 || c == Char.ofNat 10 || c == Char.ofNat 11 ||
    c == Char.ofNat 12 || c == Char.ofNat 13

/-- Greedy decimal-digit scan: value so far, digit count, rest. -/
def scanDigits : List Char → Nat → Nat → Nat × Nat × List Char
  | c :: cs, acc, cnt =>
      if c.isDigit then scanDigits cs (acc * 10 + (c.toNat - 48)) (cnt + 1)
      else (acc, cnt, c :: cs)
  | [], acc, cnt => (acc, cnt, [])

/-- Case-insensitive match of an ASCII word. -/
def matchWordCI : List Char → List Char → Option (List Char)
  | [], cs => Option.some cs
  | _ :: _, [] => Option.none
  | w :: ws, c :: cs =>
      if c.toLower == w then matchWordCI ws cs else Option.none

/-- The optional sign of a Python numeric literal: (negative?, rest). -/
def scanSign : List Char → Bool × List Char
  | c :: cs =>
      if c == '+' then (false, cs)
      else if c == '-' then (true, cs)
      else (false, c :: cs)
  | [] => (false, [])

/-- The body of Python `float(string)` after stripping and sign: a
special word or a decimal literal with optional fraction and exponent.
(Digit-group underscores are not modelled.) -/
def parseFloatBody (cs : List Char) : Option PyFloat :=
  match matchWordCI ("infinity".data) cs with
  | Option.some [] => Option.some .pinf
  | _ =>
    match matchWordCI ("inf".data) cs with
    | Option.some [] => Option.some .pinf
    | _ =>
      match matchWordCI ("nan".data) cs with
      | Option.some [] => Option.some .nan
      | _ =>
        let (ip, ic, rest1) := scanDigits cs 0 0
        let (fp, fc, rest2) :=
          match rest1 with
          | '.' :: cs2 => scanDigits cs2 0 0
          | _ => (0, 0, rest1)
        if ic + fc == 0 then Option.none
        else
          let mant : Rat := (ip : Rat) + (fp : Rat) / ((10 : Rat) ^ fc)
          match rest2 with
          | [] => Option.some (.finite mant)
          | e :: cs3 =>
              if e == 'e' || e == 'E' then
                let (eneg, cs4) := scanSign cs3
                let (ev, ec, rest3) := scanDigits cs4 0 0
                if ec == 0 || rest3 != [] then Option.none
                else
                  let ex : Int := if eneg then -(ev : Int) else (ev : Int)
                  Option.some (.finite (mant * (10 : Rat) ^ ex))
              else Option.none

/-- Python `float(string)`: strip whitespace, optional sign, then the
numeric body; anything else raises `ValueError`. -/
def parseFloat (s : String) : Except PyExc PyFloat :=
  let cs := (s.data.dropWhile isPySpace).reverse.dropWhile isPySpace |>.reverse
  let (neg, cs1) := scanSign cs
  match parseFloatBody cs1 with
  | Option.some (.finite q) => .ok (.finite (if neg then -q else q))
  | Option.some .pinf => .ok (if neg then .ninf else .pinf)
  | Option.some .nan => .ok .nan
  | Option.some f => .ok f
  | Option.none => .error .valueError

/-- Python `float(x)` on an executor value: ints and bools coerce,
strings parse, everything else raises `TypeError`. -/
def pyFloatOf : Value → Except PyExc PyFloat
  | .int n => .ok (.finite (n : Rat))
  | .bool b => .ok (.finite (if b then 1 else 0))
  | .str s => parseFloat s
  | .none => .error .typeError
  | .list _ => .error .typeError
  | .dict _ => .error .typeError

/-- Python `int(string)` (used for the `[idx]` suffixes of field
paths): strip whitespace, optional sign, one or more digits.
(Digit-group underscores are not modelled.) -/
def pyIntParse (s : String) : Except PyExc Int :=
  let sg := scanSign ((s.data.dropWhile isPySpace).reverse.dropWhile isPySpace |>.reverse)
  let d := scanDigits sg.2 0 0
  if d.2.1 == 0 || d.2.2 != [] then .error .valueError
  else .ok (if sg.1 then -(d.1 : Int) else (d.1 : Int))

/-! ### The executor state

`APISequence.__init__` captures `variables` and `defaults` from the
config and starts `responses` and `user_inputs` empty.  The uuid and
millisecond-clock sources behind `generate_guid` / `generate_timestamp`
are modelled as streams indexed by how many values have been drawn, and
the external `jsonpath_ng` engine as a match-listing function. -/

/-- The `defaults` object of the configuration, as the executor reads
it: `defaults.get('baseUrl', '')`, `defaults.get('headers', {})`,
`defaults.get('validations', [])`.  A validation entry is a raw dict. -/
structure Defaults where
  baseUrl : String := ""
  headers : ValueDict := .nil
  validations : List ValueDict := []

/-- The executor object and its ambient effect sources.  The field
`vars` models `self.variables` (Lean reserves the word `variables`).
The field `jsonpathEngine` carries the external `jsonpath_ng` matcher
in an idealized, total form (a parsed query listing its matches) —
adequate wherever the executor runs on paths the library parses; the
raising library boundary, whose parser errors `extract_field` does not
catch, is modelled separately by `extract_field_jp` below. -/
structure ExecState where
  vars : List (String × Value) := []
  defaults : Defaults := {}
  responses : List (String × Value) := []
  user_inputs : List (String × String) := []
  jsonpathEngine : String → Value → List Value := fun _ _ => []
  guids : Nat → String := fun _ => ""
  guidIdx : Nat := 0
  clock : Nat → Int := fun _ => 0
  clockIdx : Nat := 0

/-- Ordered-mapping lookup (`d.get(k)`), for the executor-level
mappings `variables`, `responses` and `user_inputs`. -/
def assocFind {α : Type} (k : String) : List (String × α) → Option α
  | [] => Option.none
  | (k2, v) :: tl => if k2 = k then Option.some v else assocFind k tl

/-- Method `generate_timestamp`: draw the current millisecond clock value. -/
def generate_timestamp (st : ExecState) : Int × ExecState :=
  (st.clock st.clockIdx, { st with clockIdx := st.clockIdx + 1 })

/-- Method `generate_guid`: draw a fresh uuid string. -/
def generate_guid (st : ExecState) : String × ExecState :=
  (st.guids st.guidIdx, { st with guidIdx := st.guidIdx + 1 })

/-! ### Field extraction (`extract_field`)

The try-block of `extract_field` is `extract_field_try`; the function
itself catches `KeyError`, `IndexError`, `TypeError` and `ValueError`
and turns them into the `None` sentinel. -/

/-- Python `current[k]` for a string subscript `k`, with the exceptions Python
raises per receiver type. -/
def pyIndexStr (cur : Value) (k : String) : Except PyExc Value :=
  match cur with
  | .dict d =>
      match dictFind k d with
      | Option.some v => .ok v
      | Option.none => .error .keyError
  | _ => .error .typeError

/-- Normalize a Python sequence index: negative indices count from the
end of a sequence of length `n`. -/
def pyNormIdx (i : Int) (n : Nat) : Int :=
  if i < 0 then i + (n : Int) else i

/-- Python `current[i]` for an int subscript: lists and strings index (with
negative indices from the end), dicts raise `KeyError` for the missing
int key, everything else `TypeError`. -/
def pyIndexInt (cur : Value) (i : Int) : Except PyExc Value :=
  match cur with
  | .list xs =>
      if 0 ≤ pyNormIdx i (listLen xs) ∧ pyNormIdx i (listLen xs) < (listLen xs : Int) then
        match listGet xs (pyNormIdx i (listLen xs)).toNat with
        | Option.some v => .ok v
        | Option.none => .error .indexError
      else .error .indexError
  | .str s =>
      if 0 ≤ pyNormIdx i s.data.length ∧ pyNormIdx i s.data.length < (s.data.length : Int) then
        match s.data.get? (pyNormIdx i s.data.length).toNat with
        | Option.some c => .ok (.str (String.singleton c))
        | Option.none => .error .indexError
      else .error .indexError
  | .dict _ => .error .keyError
  | _ => .error .typeError

/-- Python `part.split('[', 1)`: the text before the first `[` and the
text after it (the whole string and `""` when there is no `[`). -/
def splitOnceLB : List Char → List Char × List Char
  | [] => ([], [])
  | c :: cs =>
      if c == '[' then ([], cs)
      else
        let (a, b) := splitOnceLB cs
        (c :: a, b)

/-- Python `s.rstrip(']')`: drop every trailing `]`. -/
def rstripRB (cs : List Char) : List Char :=
  (cs.reverse.dropWhile (fun c => c == ']')).reverse

/-- Python `field_path.split('.')`. -/
def splitDots : List Char → List (List Char)
  | [] => [[]]
  | c :: cs =>
      if c == '.' then [] :: splitDots cs
      else
        match splitDots cs with
        | part :: rest => (c :: part) :: rest
        | [] => [[c]]

/-- The `for part in parts` loop of `extract_field`: walk one segment
at a time, handling a `key[idx]` or `[idx]` array suffix (the index is
parsed with `int(...)` before any subscripting happens, as in the
source). -/
def extractWalk : List (List Char) → Value → Except PyExc Value
  | [], cur => .ok cur
  | p :: rest, cur =>
      if p.contains '[' && p.contains ']' then
        (pyIntParse (String.mk (rstripRB (splitOnceLB p).2))).bind fun idx =>
          if (splitOnceLB p).1 != [] then
            (pyIndexStr cur (String.mk (splitOnceLB p).1)).bind fun v1 =>
              (pyIndexInt v1 idx).bind fun v2 => extractWalk rest v2
          else
            (pyIndexInt cur idx).bind fun v2 => extractWalk rest v2
      else
        (pyIndexStr cur (String.mk p)).bind fun v => extractWalk rest v

/-- The test `field_path.startswith('$')`. -/
def startsDollar (p : String) : Bool :=
  match p.data with
  | c :: _ => c == '$'
  | [] => false

/-- The try-block of `extract_field`: a path that starts with `$` goes
to the JSONPath engine (one match is returned bare, several as a list,
none as `None`); any other path uses the simple dot/bracket grammar.
A non-string path raises `AttributeError` at `field_path.startswith`. -/
def extract_field_try (st : ExecState) (data : Value) (path : Value) :
    Except PyExc Value :=
  match path with
  | .str p =>
      if startsDollar p then
        match st.jsonpathEngine p data with
        | [m] => .ok m
        | [] => .ok Value.none
        | ms => .ok (.list (toValueList ms))
      else extractWalk (splitDots p.data) data
  | _ => .error .attributeError

/-- Does the `except (KeyError, IndexError, TypeError, ValueError)`
clause of `extract_field` catch this exception? -/
def extractCatches : PyExc → Bool
  | .keyError => true
  | .indexError => true
  | .typeError => true
  | .valueError => true
  | .attributeError => false
  | .jsonPathError => false

/-- Method `extract_field`: the try-block with the four indexing exception
classes caught and turned into the `None` sentinel.  (Over the
idealized total engine; `extract_field_jp` is the same function over
the raising engine boundary.) -/
def extract_field (st : ExecState) (data : Value) (path : Value) :
    Except PyExc Value :=
  match extract_field_try st data path with
  | .ok v => .ok v
  | .error e => if extractCatches e then .ok Value.none else .error e

/-- Method `extract_field` on a string path, as the substitution engine calls
it (over the total engine a string path never raises, so the sentinel
default is inert). -/
def extract_field_or_none (st : ExecState) (data : Value) (p : String) : Value :=
  match extract_field st data (.str p) with
  | .ok v => v
  | .error _ => Value.none

/-! ### The raising JSONPath boundary

The `$` branch of `extract_field` calls
`jsonpath_parse(field_path).find(data)` — a call into the external
`jsonpath_ng` library which can itself raise: on a malformed path such
as `"$["` its parser raises `JsonPathParserError`, which is not among
the four classes the except-clause catches.  To settle what
`extract_field` does at that boundary, the engine is modelled here as
returning `Except`: the ok result is the match list, an error is an
exception the library call raises. -/

/-- The try-block of `extract_field` over the raising engine boundary;
identical to `extract_field_try` except that the engine call may
raise. -/
def extract_field_try_jp (J : String → Value → Except PyExc (List Value))
    (data : Value) (path : Value) : Except PyExc Value :=
  match path with
  | .str p =>
      if startsDollar p then
        match J p data with
        | .error e => .error e
        | .ok [m] => .ok m
        | .ok [] => .ok Value.none
        | .ok ms => .ok (.list (toValueList ms))
      else extractWalk (splitDots p.data) data
  | _ => .error .attributeError

/-- Method `extract_field` over the raising engine boundary: the same
except-clause, catching only the four indexing classes. -/
def extract_field_jp (J : String → Value → Except PyExc (List Value))
    (data : Value) (path : Value) : Except PyExc Value :=
  match extract_field_try_jp J data path with
  | .ok v => .ok v
  | .error e => if extractCatches e then .ok Value.none else .error e

/-- The documented behavior of `jsonpath_ng` on the malformed path
`"$["`: `jsonpath_parse("$[")` raises `JsonPathParserError` before any
matching happens.  (Every other path is immaterial here and returns no
matches.) -/
def malformedJPEngine : String → Value → Except PyExc (List Value) :=
  fun p _ => if p = "$[" then .error .jsonPathError else .ok []

/-! ### The substitution engine (`substitute_variables`)

Each regex pass of the string case is modelled by a left-to-right
scanner over the character list.  The fuel of each scanner is the
length of its input: every step consumes at least one character, so the
fuel never runs out on the strings actually scanned. -/

/-- The brace characters of a `\x7b\x7b ... \x7d\x7d` placeholder. -/
def obr : Char := Char.ofNat 123

/-- Closing brace. -/
def cbr : Char := Char.ofNat 125

/-- Match a literal character sequence, returning what follows it. -/
def matchLit : List Char → List Char → Option (List Char)
  | [], cs => Option.some cs
  | _ :: _, [] => Option.none
  | p :: ps, c :: cs => if c == p then matchLit ps cs else Option.none

/-- Match one `\x7b\x7b\s*CORE\s*\x7d\x7d` placeholder at the head of
the input (the shape of the `$guid` / `$timestamp` / `.vars.KEY` /
`.input.NAME` patterns), returning what follows the match. -/
def matchPh (core : List Char) (cs : List Char) : Option (List Char) :=
  match matchLit [obr, obr] cs with
  | Option.none => Option.none
  | Option.some r1 =>
    let r2 := r1.dropWhile isPySpace
    match matchLit core r2 with
    | Option.none => Option.none
    | Option.some r3 =>
      let r4 := r3.dropWhile isPySpace
      matchLit [cbr, cbr] r4

/-- Model of `re.sub` of a fixed placeholder: scan left
to right, splice the replacement (which is not rescanned), continue
after the match. -/
def subLitGo (core repl : List Char) : Nat → List Char → List Char
  | _, [] => []
  | 0, cs => cs
  | fuel + 1, c :: cs =>
    match matchPh core (c :: cs) with
    | Option.some rest => repl ++ subLitGo core repl fuel rest
    | Option.none => c :: subLitGo core repl fuel cs

/-- Model of `re.sub` of a fixed placeholder with a fixed replacement. -/
def subLit (core repl cs : List Char) : List Char :=
  subLitGo core repl cs.length cs

/-- The `$guid` pass: like `subLit`, but every occurrence draws a fresh
uuid from the state (the replacement is a lambda calling
`generate_guid`). -/
def subGuidGo : Nat → List Char → ExecState → List Char × ExecState
  | _, [], st => ([], st)
  | 0, cs, st => (cs, st)
  | fuel + 1, c :: cs, st =>
    match matchPh ("$guid".data) (c :: cs) with
    | Option.some rest =>
        let (g, st1) := generate_guid st
        let (tail, st2) := subGuidGo fuel rest st1
        (g.data ++ tail, st2)
    | Option.none =>
        let (tail, st1) := subGuidGo fuel cs st
        (c :: tail, st1)

/-- The `$guid` pass over a whole string. -/
def subGuid (st : ExecState) (cs : List Char) : List Char × ExecState :=
  subGuidGo cs.length cs st

/-- The `$timestamp` pass: every occurrence becomes the one timestamp
string of this `substitute_variables` call. -/
def tsPass (ts : Int) (cs : List Char) : List Char :=
  subLit ("$timestamp".data) (toString ts).data cs

/-- The global-variables pass: one `re.sub` per `variables` entry, in
insertion order, replacing `\x7b\x7b .vars.KEY \x7d\x7d` with `str(value)`. -/
def varsPass (vars : List (String × Value)) (cs : List Char) : List Char :=
  vars.foldl (fun cur nv => subLit (".vars.".data ++ nv.1.data) (pyStr nv.2).data cur) cs

/-- The user-input pass: one `re.sub` per collected input, in order. -/
def inputPass (inputs : List (String × String)) (cs : List Char) : List Char :=
  inputs.foldl (fun cur nv => subLit (".input.".data ++ nv.1.data) nv.2.data cur) cs

/-- A character of the `([a-zA-Z0-9_-]+)` node-id group. -/
def isIdChar (c : Char) : Bool :=
  c.isAlphanum || c == '_' || c == '-'

/-- One response-reference match: the full matched text and the two
captured groups. -/
structure RespMatch where
  full : List Char
  nodeId : String
  fieldPath : String

/-- The lazy `(.+?)\s*\x7d\x7d` tail of the response-reference regex:
take the fewest (non-newline) characters after which whitespace and the
closing braces follow.  Returns the captured group and what follows the
whole match. -/
def lazyFieldGo : Nat → List Char → List Char → Option (List Char × List Char)
  | 0, _, _ => Option.none
  | _ + 1, _, [] => Option.none
  | fuel + 1, acc, c :: cs =>
      if c == Char.ofNat 10 then Option.none
      else
        let acc2 := acc ++ [c]
        match matchLit [cbr, cbr] (cs.dropWhile isPySpace) with
        | Option.some rest => Option.some (acc2, rest)
        | Option.none => lazyFieldGo fuel acc2 cs

/-- Match one `\x7b\x7b\s*\.responses\.(id)\.(.+?)\s*\x7d\x7d`
reference at the head of the input. -/
def matchResp (cs : List Char) : Option (RespMatch × List Char) :=
  match matchLit [obr, obr] cs with
  | Option.none => Option.none
  | Option.some r1 =>
    let r2 := r1.dropWhile isPySpace
    match matchLit (".responses.".data) r2 with
    | Option.none => Option.none
    | Option.some r3 =>
      let nid := r3.takeWhile isIdChar
      if nid == [] then Option.none
      else
        match r3.dropWhile isIdChar with
        | '.' :: r5 =>
          match lazyFieldGo r5.length [] r5 with
          | Option.none => Option.none
          | Option.some (fp, rest) =>
              Option.some
                ({ full := cs.take (cs.length - rest.length),
                   nodeId := String.mk nid, fieldPath := String.mk fp }, rest)
        | _ => Option.none

/-- Model of `re.finditer` over the response-reference pattern: all
non-overlapping matches, left to right. -/
def findRespGo : Nat → List Char → List RespMatch
  | _, [] => []
  | 0, _ => []
  | fuel + 1, c :: cs =>
    match matchResp (c :: cs) with
    | Option.some (m, rest) => m :: findRespGo fuel rest
    | Option.none => findRespGo fuel cs

/-- Python `str.replace`: replace every non-overlapping occurrence,
left to right. -/
def replaceAllGo (pat repl : List Char) : Nat → List Char → List Char
  | _, [] => []
  | 0, cs => cs
  | fuel + 1, c :: cs =>
    match matchLit pat (c :: cs) with
    | Option.some rest => repl ++ replaceAllGo pat repl fuel rest
    | Option.none => c :: replaceAllGo pat repl fuel cs

/-- Python `str.replace` over a whole string. -/
def replaceAll (pat repl cs : List Char) : List Char :=
  replaceAllGo pat repl cs.length cs

/-- Process one response-reference match as the loop body does: a
missing node or an unextractable field only logs at debug level;
otherwise every occurrence of the matched text is replaced by the
string form of the extracted value. -/
def respSubstOne (st : ExecState) (cur : List Char) (m : RespMatch) : List Char :=
  match assocFind m.nodeId st.responses with
  | Option.none => cur
  | Option.some rsp =>
      let v := extract_field_or_none st rsp m.fieldPath
      if isNoneV v then cur
      else replaceAll m.full (pyStr v).data cur

/-- The response-references pass: `re.finditer` runs on the string the
pass received, then each match is applied by `str.replace` in order. -/
def respPass (st : ExecState) (cs : List Char) : List Char :=
  (findRespGo cs.length cs).foldl (respSubstOne st) cs

/-- The string case of `substitute_variables` (lines 73 to 113 of the
template): establish the step timestamp (drawing a fresh one when none
was passed down), then run the four passes in their fixed order. -/
def substituteStr (st : ExecState) (tsIn : Option Int) (s : String) :
    String × ExecState :=
  let (ts, st1) :=
    match tsIn with
    | Option.some t => (t, st)
    | Option.none => generate_timestamp st
  let (cs1, st2) := subGuid st1 s.data
  let cs2 := tsPass ts cs1
  let cs3 := varsPass st2.vars cs2
  let cs4 := inputPass st2.user_inputs cs3
  let cs5 := respPass st2 cs4
  (String.mk cs5, st2)

mutual
/-- Method `substitute_variables`: strings run the four passes, mappings and
sequences recurse per entry (passing the same `step_timestamp`
argument down), other scalars pass through unchanged. -/
def substitute_variables (st : ExecState) (tsIn : Option Int) :
    Value → Value × ExecState
  | .str s =>
      let (r, st1) := substituteStr st tsIn s
      (.str r, st1)
  | .list xs =>
      let (xs2, st1) := substValL st tsIn xs
      (.list xs2, st1)
  | .dict kvs =>
      let (kvs2, st1) := substValD st tsIn kvs
      (.dict kvs2, st1)
  | v => (v, st)
termination_by structural v => v

/-- Elementwise substitution over a list value. -/
def substValL (st : ExecState) (tsIn : Option Int) :
    ValueList → ValueList × ExecState
  | .nil => (.nil, st)
  | .cons v tl =>
      let (v2, st1) := substitute_variables st tsIn v
      let (tl2, st2) := substValL st1 tsIn tl
      (.cons v2 tl2, st2)
termination_by structural l => l

/-- Per-value substitution over a dict value (keys unchanged). -/
def substValD (st : ExecState) (tsIn : Option Int) :
    ValueDict → ValueDict × ExecState
  | .nil => (.nil, st)
  | .cons k v tl =>
      let (v2, st1) := substitute_variables st tsIn v
      let (tl2, st2) := substValD st1 tsIn tl
      (.cons k v2 tl2, st2)
termination_by structural d => d
end

/-! ### Conditions (`evaluate_conditions`, `_evaluate_operator`) -/

/-- One condition entry of a node.  The field `variable_` models the
dict key `variable` (a Lean reserved word).  `value` is `Value.none`
when the key is absent or null, exactly as `condition.get('value')`
returns; `field` defaults to `''` as `condition.get('field', '')`. -/
structure Condition where
  node : Option String := Option.none
  variable_ : Option String := Option.none
  input : Option String := Option.none
  field : String := ""
  operator : Option String := Option.none
  value : Value := Value.none

/-- Python truthiness of `condition.get(key)` for a string-valued key:
present and non-empty. -/
def truthyKey : Option String → Bool
  | Option.some s => !(s == "")
  | Option.none => false

/-- Method `_evaluate_operator` (underscore dropped): equality operators use Python `==`, `exists`
is an `is not None` check, the four numeric operators coerce both
operands with `float()` (actual first) and compare; an unknown or
missing operator logs and returns `False`. -/
def evaluate_operator (op : Option String) (actual expected : Value) :
    Except PyExc Bool :=
  match op with
  | Option.none => .ok false
  | Option.some o =>
    if o == "statusCode" then .ok (pyEq actual expected)
    else if o == "equals" then .ok (pyEq actual expected)
    else if o == "notEquals" then .ok (!pyEq actual expected)
    else if o == "exists" then .ok (!isNoneV actual)
    else if o == "greaterThan" then
      match pyFloatOf actual with
      | .error e => .error e
      | .ok a =>
        match pyFloatOf expected with
        | .error e => .error e
        | .ok e2 => .ok (pyFloatLt e2 a)
    else if o == "lessThan" then
      match pyFloatOf actual with
      | .error e => .error e
      | .ok a =>
        match pyFloatOf expected with
        | .error e => .error e
        | .ok e2 => .ok (pyFloatLt a e2)
    else if o == "greaterThanOrEqual" then
      match pyFloatOf actual with
      | .error e => .error e
      | .ok a =>
        match pyFloatOf expected with
        | .error e => .error e
        | .ok e2 => .ok (pyFloatLe e2 a)
    else if o == "lessThanOrEqual" then
      match pyFloatOf actual with
      | .error e => .error e
      | .ok a =>
        match pyFloatOf expected with
        | .error e => .error e
        | .ok e2 => .ok (pyFloatLe a e2)
    else .ok false

/-- The expected-value preparation of one condition: a non-null
`value` runs through substitution (with no step timestamp passed). -/
def condExpected (st : ExecState) (c : Condition) : Value × ExecState :=
  if isNoneV c.value then (c.value, st)
  else substitute_variables st Option.none c.value

/-- Wrap the operator result with the state carried so far. -/
def finishCond (st1 : ExecState) (op : Option String)
    (actual expected : Value) : Except PyExc (Bool × ExecState) :=
  match evaluate_operator op actual expected with
  | .error e => .error e
  | .ok b => .ok (b, st1)

/-- Evaluate one condition of the loop body: prepare the expected
value, pick the actual value from the condition source (a `node` whose
response is absent makes the whole evaluation return `False`), then
apply the operator. -/
def evalCondition (st : ExecState) (c : Condition) :
    Except PyExc (Bool × ExecState) :=
  let (expected, st1) := condExpected st c
  if truthyKey c.node then
    match assocFind (c.node.getD "") st1.responses with
    | Option.none => .ok (false, st1)
    | Option.some rsp =>
      if c.operator == Option.some "statusCode" then
        match rsp with
        | .dict d =>
            finishCond st1 c.operator ((dictFind "_status_code" d).getD Value.none) expected
        | _ => .error .attributeError
      else if !(c.field == "") then
        match rsp with
        | .dict d =>
            let body := (dictFind "body" d).getD (.dict .nil)
            match extract_field st1 body (.str c.field) with
            | .error e => .error e
            | .ok actual => finishCond st1 c.operator actual expected
        | _ => .error .attributeError
      else finishCond st1 c.operator Value.none expected
  else if truthyKey c.variable_ then
    finishCond st1 c.operator
      ((assocFind (c.variable_.getD "") st1.vars).getD Value.none) expected
  else if truthyKey c.input then
    let actual :=
      match assocFind (c.input.getD "") st1.user_inputs with
      | Option.some v => Value.str v
      | Option.none => Value.none
    finishCond st1 c.operator actual expected
  else finishCond st1 c.operator Value.none expected

/-- The `for condition in conditions` loop: AND logic, stopping at the
first condition that evaluates to `False`. -/
def evalCondLoop : List Condition → ExecState → Except PyExc (Bool × ExecState)
  | [], st => .ok (true, st)
  | c :: rest, st =>
    match evalCondition st c with
    | .error e => .error e
    | .ok (false, st1) => .ok (false, st1)
    | .ok (true, st1) => evalCondLoop rest st1

/-! ### Nodes and validation -/

/-- A node as the executor reads it.  `bodyFormat` is carried because
the configuration schema declares it; note that nothing in the
executor reads it.  A validation entry is a raw dict, again as the
executor reads it (`'httpStatusCode' in validation`, `'field' in
validation`, `validation.get('value')`). -/
structure Node where
  url : String := ""
  headers : ValueDict := .nil
  skipDefaultHeaders : Bool := false
  body : Value := Value.none
  bodyFormat : Value := Value.none
  conditions : List Condition := []
  validations : List ValueDict := []
  skipDefaultValidations : Bool := false

/-- Method `evaluate_conditions`: no conditions means always execute,
otherwise run the AND loop. -/
def evaluate_conditions (st : ExecState) (node : Node) :
    Except PyExc (Bool × ExecState) :=
  match node.conditions with
  | [] => .ok (true, st)
  | cs => evalCondLoop cs st

/-- The combined validation list: default validations (unless
`skipDefaultValidations`) then node validations; when the result is
empty a single `httpStatusCode: 200` entry is synthesized. -/
def collectValidations (st : ExecState) (node : Node) : List ValueDict :=
  let vs :=
    (if node.skipDefaultValidations then [] else st.defaults.validations)
      ++ node.validations
  match vs with
  | [] => [ValueDict.cons "httpStatusCode" (.int 200) .nil]
  | _ => vs

/-- The `httpStatusCode` part of one validation entry (pure: it only
appends to the error list). -/
def statusCheck (rsp v : ValueDict) (errs : List String) : List String :=
  if dictHas "httpStatusCode" v then
    let expected := (dictFind "httpStatusCode" v).getD Value.none
    let actual := (dictFind "_status_code" rsp).getD Value.none
    if !pyEq actual expected then
      errs ++ ["HTTP status validation failed: expected " ++ pyStr expected
        ++ ", got " ++ pyStr actual]
    else errs
  else errs

/-- The `'field' in validation` part of one validation entry: a non-null
expected value is substituted and compared with Python `==` (whatever
operator key the entry may carry); a null expected value demands bare
existence. -/
def fieldCheck (st : ExecState) (rsp v : ValueDict) (errs1 : List String) :
    Except PyExc (List String × ExecState) :=
  let fieldPath := (dictFind "field" v).getD Value.none
  let ev := (dictFind "value" v).getD Value.none
  let (expected, st1) :=
    if isNoneV ev then (ev, st) else substitute_variables st Option.none ev
  let body := (dictFind "body" rsp).getD (.dict .nil)
  match extract_field st1 body fieldPath with
  | .error e => .error e
  | .ok actual =>
    if !isNoneV expected then
      if !pyEq actual expected then
        .ok (errs1 ++ ["Field validation failed for " ++ pyStr fieldPath
          ++ ": expected " ++ pyStr expected ++ ", got " ++ pyStr actual], st1)
      else .ok (errs1, st1)
    else if isNoneV actual then
      .ok (errs1 ++ ["Field validation failed: " ++ pyStr fieldPath
        ++ " not found in response"], st1)
    else .ok (errs1, st1)

/-- One iteration of the validation loop: the status-code check and
the field check of a single validation entry, appending error messages
exactly as the f-strings build them. -/
def validateOne (st : ExecState) (rsp v : ValueDict)
    (errs : List String) : Except PyExc (List String × ExecState) :=
  let errs1 := statusCheck rsp v errs
  if dictHas "field" v then fieldCheck st rsp v errs1
  else .ok (errs1, st)

/-- The `for validation in validations` loop. -/
def validateLoop (rsp : ValueDict) :
    List ValueDict → List String → ExecState → Except PyExc (List String × ExecState)
  | [], errs, st => .ok (errs, st)
  | v :: rest, errs, st =>
    match validateOne st rsp v errs with
    | .error e => .error e
    | .ok (errs1, st1) => validateLoop rsp rest errs1 st1

/-- Method `validate_response`: run every collected validation against the
response data, returning the list of error messages. -/
def validate_response (st : ExecState) (node : Node) (response_data : ValueDict) :
    Except PyExc (List String × ExecState) :=
  validateLoop response_data (collectValidations st node) [] st

/-! ### Request building (`build_url`, `build_headers`, `build_body`) -/

/-- Leading prefix test on strings. -/
def startsWithL (pre : List Char) (s : String) : Bool :=
  (matchLit pre s.data).isSome

/-- Python `base_url.rstrip('/')`. -/
def rstripSlash (s : String) : String :=
  String.mk ((s.data.reverse.dropWhile (fun c => c == '/')).reverse)

/-- Python `url.lstrip('/')`. -/
def lstripSlash (s : String) : String :=
  String.mk (s.data.dropWhile (fun c => c == '/'))

/-- Method `build_url`: substitute the node url (with no step timestamp
passed), then prepend the default base url when it is relative. -/
def build_url (st : ExecState) (node : Node) : String × ExecState :=
  let (url, st1) := substituteStr st Option.none node.url
  if startsWithL ("http://".data) url || startsWithL ("https://".data) url then
    (url, st1)
  else
    (rstripSlash st1.defaults.baseUrl ++ "/" ++ lstripSlash url, st1)

/-- Method `build_headers`: default headers (unless skipped) updated by node
headers, then substituted (again with no step timestamp passed). -/
def build_headers (st : ExecState) (node : Node) : Value × ExecState :=
  let h0 :=
    if node.skipDefaultHeaders then ValueDict.nil
    else dictUpdate ValueDict.nil st.defaults.headers
  let h1 := dictUpdate h0 node.headers
  substitute_variables st Option.none (.dict h1)

/-- Method `build_body`: a null body stays `None`; otherwise substitute (with
no step timestamp passed), JSON-encode dicts, stringify the rest.
`bodyFormat` is not consulted. -/
def build_body (st : ExecState) (node : Node) : Option String × ExecState :=
  if isNoneV node.body then (Option.none, st)
  else
    let (b, st1) := substitute_variables st Option.none node.body
    match b with
    | .dict _ => (Option.some (jsonDumps b), st1)
    | _ => (Option.some (pyStr b), st1)

/-! ### Environment preservation

Every operation of the executor leaves `variables`, `defaults`,
`responses` and `user_inputs` untouched: the only state it writes is
the uuid/clock draw position.  `sameEnv` packages the four read-only
components. -/

/-- The four executor mappings that a run never writes through these
operations. -/
def sameEnv (st st2 : ExecState) : Prop :=
  st2.vars = st.vars ∧ st2.defaults = st.defaults ∧
    st2.responses = st.responses ∧ st2.user_inputs = st.user_inputs

theorem sameEnv_refl (st : ExecState) : sameEnv st st :=
  ⟨rfl, rfl, rfl, rfl⟩

theorem sameEnv_trans {a b c : ExecState} (h1 : sameEnv a b)
    (h2 : sameEnv b c) : sameEnv a c := by
  obtain ⟨p1, p2, p3, p4⟩ := h1
  obtain ⟨q1, q2, q3, q4⟩ := h2
  exact ⟨q1.trans p1, q2.trans p2, q3.trans p3, q4.trans p4⟩

theorem subGuidGo_env : ∀ (fuel : Nat) (cs : List Char) (st : ExecState),
    sameEnv st (subGuidGo fuel cs st).2 := by
  intro fuel
  induction fuel with
  | zero =>
    intro cs st
    cases cs <;> exact sameEnv_refl st
  | succ n ih =>
    intro cs st
    cases cs with
    | nil => exact sameEnv_refl st
    | cons c cs =>
      simp only [subGuidGo]
      cases h : matchPh ("$guid".data) (c :: cs) with
      | none =>
        simpa using ih cs st
      | some rest =>
        have h2 := ih rest { st with guidIdx := st.guidIdx + 1 }
        simp only [generate_guid]
        exact sameEnv_trans (sameEnv_refl st) h2

theorem substituteStr_env (st : ExecState) (tsIn : Option Int) (s : String) :
    sameEnv st (substituteStr st tsIn s).2 := by
  cases tsIn with
  | none =>
    simp only [substituteStr, generate_timestamp, subGuid]
    exact subGuidGo_env _ _ _
  | some t =>
    simp only [substituteStr, subGuid]
    exact subGuidGo_env _ _ _

mutual
theorem substitute_variables_env :
    ∀ (st : ExecState) (tsIn : Option Int) (v : Value),
      sameEnv st (substitute_variables st tsIn v).2
  | st, tsIn, .str s => by
      simpa only [substitute_variables] using substituteStr_env st tsIn s
  | st, tsIn, .list xs => by
      simpa only [substitute_variables] using substValL_env st tsIn xs
  | st, tsIn, .dict kvs => by
      simpa only [substitute_variables] using substValD_env st tsIn kvs
  | st, _, .none => sameEnv_refl st
  | st, _, .bool _ => sameEnv_refl st
  | st, _, .int _ => sameEnv_refl st
termination_by structural _ _ v => v

theorem substValL_env :
    ∀ (st : ExecState) (tsIn : Option Int) (xs : ValueList),
      sameEnv st (substValL st tsIn xs).2
  | st, _, .nil => sameEnv_refl st
  | st, tsIn, .cons v tl => by
      have h1 := substitute_variables_env st tsIn v
      have h2 := substValL_env (substitute_variables st tsIn v).2 tsIn tl
      simp only [substValL]
      exact sameEnv_trans h1 h2
termination_by structural _ _ xs => xs

theorem substValD_env :
    ∀ (st : ExecState) (tsIn : Option Int) (kvs : ValueDict),
      sameEnv st (substValD st tsIn kvs).2
  | st, _, .nil => sameEnv_refl st
  | st, tsIn, .cons k v tl => by
      have h1 := substitute_variables_env st tsIn v
      have h2 := substValD_env (substitute_variables st tsIn v).2 tsIn tl
      simp only [substValD]
      exact sameEnv_trans h1 h2
termination_by structural _ _ kvs => kvs
end

theorem condExpected_env (st : ExecState) (c : Condition) :
    sameEnv st (condExpected st c).2 := by
  unfold condExpected
  split
  · exact sameEnv_refl st
  · exact substitute_variables_env st Option.none c.value

theorem finishCond_ok {st1 : ExecState} {op : Option String}
    {a e : Value} {b : Bool} {st2 : ExecState}
    (h : finishCond st1 op a e = .ok (b, st2)) : st2 = st1 := by
  unfold finishCond at h
  split at h
  · exact absurd h (by simp)
  · simp only [Except.ok.injEq, Prod.mk.injEq] at h
    exact h.2.symm

theorem evalCondition_env (st : ExecState) (c : Condition) (b : Bool)
    (st2 : ExecState) (h : evalCondition st c = .ok (b, st2)) :
    sameEnv st st2 := by
  have henv := condExpected_env st c
  unfold evalCondition at h
  rcases hce : condExpected st c with ⟨e, st1⟩
  rw [hce] at h henv
  simp only at h henv
  split at h
  · -- node source
    split at h
    · simp only [Except.ok.injEq, Prod.mk.injEq] at h
      exact h.2 ▸ henv
    · split at h
      · split at h
        · exact (finishCond_ok h) ▸ henv
        · exact absurd h (by simp)
      · split at h
        · split at h
          · split at h
            · exact absurd h (by simp)
            · exact (finishCond_ok h) ▸ henv
          · exact absurd h (by simp)
        · exact (finishCond_ok h) ▸ henv
  · split at h
    · exact (finishCond_ok h) ▸ henv
    · split at h
      · exact (finishCond_ok h) ▸ henv
      · exact (finishCond_ok h) ▸ henv

theorem evalCondLoop_env : ∀ (cs : List Condition) (st : ExecState)
    (b : Bool) (st2 : ExecState),
    evalCondLoop cs st = .ok (b, st2) → sameEnv st st2 := by
  intro cs
  induction cs with
  | nil =>
    intro st b st2 h
    simp only [evalCondLoop, Except.ok.injEq, Prod.mk.injEq] at h
    exact h.2 ▸ sameEnv_refl st
  | cons c rest ih =>
    intro st b st2 h
    simp only [evalCondLoop] at h
    split at h
    · exact absurd h (by simp)
    · next st1 heq =>
        simp only [Except.ok.injEq, Prod.mk.injEq] at h
        exact h.2 ▸ evalCondition_env st c false st1 heq
    · next st1 heq =>
        exact sameEnv_trans (evalCondition_env st c true st1 heq) (ih st1 b st2 h)

theorem evaluate_conditions_env (st : ExecState) (node : Node) (b : Bool)
    (st2 : ExecState) (h : evaluate_conditions st node = .ok (b, st2)) :
    sameEnv st st2 := by
  unfold evaluate_conditions at h
  split at h
  · simp only [Except.ok.injEq, Prod.mk.injEq] at h
    exact h.2 ▸ sameEnv_refl st
  · exact evalCondLoop_env _ st b st2 h

theorem fieldCheck_env (st : ExecState) (rsp v : ValueDict)
    (errs1 errs2 : List String) (st2 : ExecState)
    (h : fieldCheck st rsp v errs1 = .ok (errs2, st2)) : sameEnv st st2 := by
  simp only [fieldCheck] at h
  rcases hp : (if isNoneV ((dictFind "value" v).getD Value.none) = true
      then ((dictFind "value" v).getD Value.none, st)
      else substitute_variables st Option.none ((dictFind "value" v).getD Value.none))
    with ⟨exp, st1⟩
  have h1 : sameEnv st st1 := by
    split at hp
    · injection hp with hpa hpb
      exact hpb ▸ sameEnv_refl st
    · have h2 := substitute_variables_env st Option.none
        ((dictFind "value" v).getD Value.none)
      rw [hp] at h2
      exact h2
  rw [hp] at h
  simp only at h
  split at h
  · exact absurd h (by simp)
  · split at h
    · split at h <;>
        (simp only [Except.ok.injEq, Prod.mk.injEq] at h; exact h.2 ▸ h1)
    · split at h <;>
        (simp only [Except.ok.injEq, Prod.mk.injEq] at h; exact h.2 ▸ h1)

theorem validateOne_env (st : ExecState) (rsp v : ValueDict)
    (errs errs2 : List String) (st2 : ExecState)
    (h : validateOne st rsp v errs = .ok (errs2, st2)) : sameEnv st st2 := by
  unfold validateOne at h
  split at h
  · exact fieldCheck_env st rsp v _ errs2 st2 h
  · simp only [Except.ok.injEq, Prod.mk.injEq] at h
    exact h.2 ▸ sameEnv_refl st

theorem validateLoop_env : ∀ (vs : List ValueDict) (rsp : ValueDict)
    (errs errs2 : List String) (st st2 : ExecState),
    validateLoop rsp vs errs st = .ok (errs2, st2) → sameEnv st st2 := by
  intro vs
  induction vs with
  | nil =>
    intro rsp errs errs2 st st2 h
    simp only [validateLoop, Except.ok.injEq, Prod.mk.injEq] at h
    exact h.2 ▸ sameEnv_refl st
  | cons v rest ih =>
    intro rsp errs errs2 st st2 h
    simp only [validateLoop] at h
    split at h
    · exact absurd h (by simp)
    · next errs1 st1 heq =>
        exact sameEnv_trans (validateOne_env st rsp v errs errs1 st1 heq)
          (ih rsp errs1 errs2 st1 st2 h)

theorem validate_response_env (st : ExecState) (node : Node)
    (rsp : ValueDict) (errs : List String) (st2 : ExecState)
    (h : validate_response st node rsp = .ok (errs, st2)) : sameEnv st st2 :=
  validateLoop_env (collectValidations st node) rsp [] errs st st2 h

theorem build_url_env (st : ExecState) (node : Node) :
    sameEnv st (build_url st node).2 := by
  have h := substituteStr_env st Option.none node.url
  unfold build_url
  rcases hp : substituteStr st Option.none node.url with ⟨u, st1⟩
  rw [hp] at h
  simp only
  split <;> exact h

theorem build_headers_env (st : ExecState) (node : Node) :
    sameEnv st (build_headers st node).2 :=
  substitute_variables_env st Option.none _

theorem build_body_env (st : ExecState) (node : Node) :
    sameEnv st (build_body st node).2 := by
  unfold build_body
  split
  · exact sameEnv_refl st
  · have h := substitute_variables_env st Option.none node.body
    rcases hp : substitute_variables st Option.none node.body with ⟨b, st1⟩
    rw [hp] at h
    simp only
    split <;> exact h

/-! ### Totality of `extract_field` on string paths

Every exception the try-block of `extract_field` can raise on a string
path is one of the four classes its except-clause catches, so the
function always returns (`None` standing for "not found"). -/

theorem pyIntParse_caught (s : String) (e : PyExc)
    (h : pyIntParse s = .error e) : extractCatches e = true := by
  simp only [pyIntParse] at h
  split at h
  all_goals cases h
  rfl

theorem pyIndexStr_caught (cur : Value) (k : String) (e : PyExc)
    (h : pyIndexStr cur k = .error e) : extractCatches e = true := by
  unfold pyIndexStr at h
  repeat' split at h
  all_goals cases h
  all_goals rfl

theorem pyIndexInt_caught (cur : Value) (i : Int) (e : PyExc)
    (h : pyIndexInt cur i = .error e) : extractCatches e = true := by
  unfold pyIndexInt at h
  repeat' split at h
  all_goals cases h
  all_goals rfl

theorem exceptBindError {α β : Type} {x : Except PyExc α}
    {g : α → Except PyExc β} {e : PyExc} (h : x.bind g = .error e) :
    x = .error e ∨ ∃ a, x = .ok a ∧ g a = .error e := by
  cases x with
  | error e2 =>
    left
    simpa [Except.bind] using h
  | ok a =>
    right
    exact ⟨a, rfl, by simpa [Except.bind] using h⟩

theorem extractWalk_caught : ∀ (parts : List (List Char)) (cur : Value)
    (e : PyExc), extractWalk parts cur = .error e → extractCatches e = true := by
  intro parts
  induction parts with
  | nil =>
    intro cur e h
    exact absurd h (by simp [extractWalk])
  | cons p rest ih =>
    intro cur e h
    unfold extractWalk at h
    split at h
    · rcases exceptBindError h with h1 | ⟨idx, _, h2⟩
      · exact pyIntParse_caught _ _ h1
      · split at h2
        · rcases exceptBindError h2 with h3 | ⟨v1, _, h4⟩
          · exact pyIndexStr_caught _ _ _ h3
          · rcases exceptBindError h4 with h5 | ⟨v2, _, h6⟩
            · exact pyIndexInt_caught _ _ _ h5
            · exact ih _ _ h6
        · rcases exceptBindError h2 with h3 | ⟨v2, _, h4⟩
          · exact pyIndexInt_caught _ _ _ h3
          · exact ih _ _ h4
    · rcases exceptBindError h with h1 | ⟨v, _, h2⟩
      · exact pyIndexStr_caught _ _ _ h1
      · exact ih _ _ h2

theorem jsonMatch_ne_error (ms : List Value) (e : PyExc) :
    (match ms with
     | [m] => (Except.ok m : Except PyExc Value)
     | [] => Except.ok Value.none
     | ms => Except.ok (Value.list (toValueList ms))) ≠ Except.error e := by
  match ms with
  | [] => simp
  | [m] => simp
  | m1 :: m2 :: tl => simp

theorem extract_field_try_caught (st : ExecState) (data : Value)
    (p : String) (e : PyExc)
    (h : extract_field_try st data (.str p) = .error e) :
    extractCatches e = true := by
  simp only [extract_field_try] at h
  by_cases hd : startsDollar p
  · rw [if_pos hd] at h
    exact absurd h (jsonMatch_ne_error _ e)
  · rw [if_neg hd] at h
    exact extractWalk_caught _ _ e h

theorem extract_field_str_ok (st : ExecState) (data : Value) (p : String) :
    ∃ v, extract_field st data (.str p) = .ok v := by
  unfold extract_field
  cases hr : extract_field_try st data (.str p) with
  | ok v => exact ⟨v, rfl⟩
  | error e =>
    have hc := extract_field_try_caught st data p e hr
    exact ⟨Value.none, by simp [hc]⟩

/-! ## The claims -/

/-- Per-result variables preservation: an operation that may raise
preserves `self.variables` whenever it returns. -/
def okVarsPreserved {α : Type} (st : ExecState) : Except PyExc (α × ExecState) → Prop
  | .ok (_, st2) => st2.vars = st.vars
  | .error _ => True

/-- Totality of `extract_field_jp` on any path in the simple
dot/bracket grammar: the walk raises only caught classes, so the
function returns. -/
theorem extract_field_jp_walk_ok (J : String → Value → Except PyExc (List Value))
    (data : Value) (p : String) (hd : startsDollar p = false) :
    ∃ v, extract_field_jp J data (.str p) = .ok v := by
  unfold extract_field_jp extract_field_try_jp
  simp only [hd, Bool.false_eq_true, if_false]
  cases hw : extractWalk (splitDots p.data) data with
  | ok v => exact ⟨v, by simp⟩
  | error e =>
    have hc := extractWalk_caught (splitDots p.data) data e hw
    exact ⟨Value.none, by simp [hc]⟩

/-- Over an engine that never raises, the raising-boundary model and
the idealized total model of `extract_field` agree on every input. -/
theorem extract_field_jp_agrees (st : ExecState) (data path : Value) :
    extract_field_jp (fun p d => .ok (st.jsonpathEngine p d)) data path =
      extract_field st data path := by
  unfold extract_field_jp extract_field extract_field_try_jp extract_field_try
  cases path with
  | str p =>
    by_cases hd : startsDollar p
    · rcases hls : st.jsonpathEngine p data with _ | ⟨m, _ | ⟨m2, tl⟩⟩ <;>
        simp [hd, hls]
    · simp [hd]
  | none => rfl
  | bool b => rfl
  | int n => rfl
  | list xs => rfl
  | dict kvs => rfl

/-- C2 (amended): `extract_field` never propagates an exception for a
path in the simple dot/bracket grammar — a missing key, an
out-of-range index or a type mismatch yields the `None` sentinel
(concrete conjuncts at the end) — and a `$` path cannot raise when the
JSONPath engine returns its match list; but an exception the engine
call itself raises is fed to the except-clause, which catches only the
four indexing classes: the parser error on malformed JSONPath syntax
propagates out of `extract_field`. -/
theorem C2_extract_field_no_raise_amended :
    (∀ (J : String → Value → Except PyExc (List Value)) (data : Value) (p : String),
        startsDollar p = false → ∃ v, extract_field_jp J data (.str p) = .ok v)
    ∧ (∀ (J : String → Value → Except PyExc (List Value)) (data : Value)
        (p : String) (ms : List Value),
        J p data = .ok ms → ∃ v, extract_field_jp J data (.str p) = .ok v)
    ∧ (∀ (J : String → Value → Except PyExc (List Value)) (data : Value)
        (p : String) (e : PyExc),
        startsDollar p = true → J p data = .error e →
        extract_field_jp J data (.str p) =
          (if extractCatches e then .ok Value.none else .error e))
    ∧ extract_field_jp malformedJPEngine (.dict (.cons "a" (.int 1) .nil)) (.str "b")
        = .ok Value.none
    ∧ extract_field_jp malformedJPEngine
        (.dict (.cons "xs" (.list (.cons (.int 7) .nil)) .nil)) (.str "xs[5]")
        = .ok Value.none
    ∧ extract_field_jp malformedJPEngine (.int 3) (.str "a.b") = .ok Value.none := by
  refine ⟨extract_field_jp_walk_ok, ?_, ?_, rfl, rfl, rfl⟩
  · intro J data p ms hok
    by_cases hd : startsDollar p
    · rcases ms with _ | ⟨m, _ | ⟨m2, tl⟩⟩
      · exact ⟨Value.none, by simp [extract_field_jp, extract_field_try_jp, hd, hok]⟩
      · exact ⟨m, by simp [extract_field_jp, extract_field_try_jp, hd, hok]⟩
      · exact ⟨Value.list (toValueList (m :: m2 :: tl)),
          by simp [extract_field_jp, extract_field_try_jp, hd, hok]⟩
    · exact extract_field_jp_walk_ok J data p (by simpa using hd)
  · intro J data p e hd herr
    simp [extract_field_jp, extract_field_try_jp, hd, herr]

/-- C2 counterexample: at the malformed JSONPath `"$["` the engine
call raises its parser error, which the except-clause does not catch —
`extract_field` propagates the exception instead of returning a value
or the `None` sentinel, so the claim as stated is false on the code. -/
theorem C2_extract_field_raises_cex :
    extract_field_jp malformedJPEngine (.dict .nil) (.str "$[")
      = .error PyExc.jsonPathError
    ∧ (∀ v : Value,
        extract_field_jp malformedJPEngine (.dict .nil) (.str "$[") ≠ .ok v) := by
  refine ⟨rfl, ?_⟩
  intro v h
  rw [show extract_field_jp malformedJPEngine (.dict ValueDict.nil) (.str "$[")
    = .error PyExc.jsonPathError from rfl] at h
  exact absurd h (by simp)

/-- C9: the global variables mapping is never mutated: every
state-threading operation of the executor returns a state whose
`variables` component is exactly the input state one.  (`extract_field`
is pure in the embedding — it takes no state and returns none — so it
is covered by construction.) -/
theorem C9_variables_never_mutated :
    (∀ (st : ExecState) (tsIn : Option Int) (v : Value),
        ((substitute_variables st tsIn v).2).vars = st.vars)
    ∧ (∀ (st : ExecState) (node : Node),
        okVarsPreserved st (evaluate_conditions st node))
    ∧ (∀ (st : ExecState) (node : Node) (rsp : ValueDict),
        okVarsPreserved st (validate_response st node rsp))
    ∧ (∀ (st : ExecState) (node : Node), ((build_url st node).2).vars = st.vars)
    ∧ (∀ (st : ExecState) (node : Node), ((build_headers st node).2).vars = st.vars)
    ∧ (∀ (st : ExecState) (node : Node), ((build_body st node).2).vars = st.vars) := by
  refine ⟨?_, ?_, ?_, ?_, ?_, ?_⟩
  · intro st tsIn v
    exact (substitute_variables_env st tsIn v).1
  · intro st node
    cases h : evaluate_conditions st node with
    | error e => simp [okVarsPreserved]
    | ok p =>
      obtain ⟨b, st2⟩ := p
      simpa [okVarsPreserved] using (evaluate_conditions_env st node b st2 h).1
  · intro st node rsp
    cases h : validate_response st node rsp with
    | error e => simp [okVarsPreserved]
    | ok p =>
      obtain ⟨errs, st2⟩ := p
      simpa [okVarsPreserved] using (validate_response_env st node rsp errs st2 h).1
  · intro st node
    exact (build_url_env st node).1
  · intro st node
    exact (build_headers_env st node).1
  · intro st node
    exact (build_body_env st node).1

/-- C6: a node with no conditions always executes; conditions are
AND-combined with short-circuit evaluation (a false condition ends the
loop with `False` ignoring the rest, a true one passes control to the
remaining conditions); and a condition whose `node` source has no
stored response makes the evaluation return `False` (the node is
skipped) instead of raising. -/
theorem C6_conditions_gate :
    (∀ (st : ExecState) (node : Node), node.conditions = [] →
        evaluate_conditions st node = .ok (true, st))
    ∧ (∀ (st st1 : ExecState) (c : Condition) (rest : List Condition) (node : Node),
        node.conditions = c :: rest → evalCondition st c = .ok (false, st1) →
        evaluate_conditions st node = .ok (false, st1))
    ∧ (∀ (st st1 : ExecState) (c : Condition) (rest : List Condition),
        evalCondition st c = .ok (true, st1) →
        evalCondLoop (c :: rest) st = evalCondLoop rest st1)
    ∧ (∀ (st : ExecState) (c : Condition) (nid : String),
        c.node = Option.some nid → nid ≠ "" →
        assocFind nid st.responses = Option.none →
        evalCondition st c = .ok (false, (condExpected st c).2)) := by
  refine ⟨?_, ?_, ?_, ?_⟩
  · intro st node h
    simp [evaluate_conditions, h]
  · intro st st1 c rest node hc heval
    simp [evaluate_conditions, hc, evalCondLoop, heval]
  · intro st st1 c rest heval
    simp [evalCondLoop, heval]
  · intro st c nid hnode hne hfind
    have hresp := (condExpected_env st c).2.2.1
    simp only [evalCondition]
    rcases hp : condExpected st c with ⟨e, st1⟩
    rw [hp] at hresp
    dsimp only at hresp ⊢
    rw [hnode]
    simp only [truthyKey, Option.getD]
    rw [if_pos (by simpa using hne)]
    rw [hresp, hfind]


/-- A state whose millisecond clock returns successive integers, so
that distinct `generate_timestamp` calls are visibly distinct. -/
def tickState : ExecState := { clock := fun n => (n : Int) }

/-- A node guarded by a numeric condition whose actual operand is the
null of a missing source: `float(None)` raises `TypeError`. -/
def gtNode : Node :=
  { conditions := [{ operator := Option.some "greaterThan", value := .int 5 }] }

/-- C3 counterexample: evaluating a `greaterThan` condition whose
actual operand cannot be coerced (`None`, since the condition names no
source) raises `TypeError` — it does not yield condition-false, so the
claim as stated is false on the code. -/
theorem C3_numeric_coercion_cex :
    evaluate_conditions tickState gtNode = .error PyExc.typeError
    ∧ ∀ st2 : ExecState, evaluate_conditions tickState gtNode ≠ .ok (false, st2) := by
  refine ⟨rfl, ?_⟩
  intro st2 h
  rw [show evaluate_conditions tickState gtNode = .error PyExc.typeError from rfl] at h
  exact absurd h (by simp)

/-- C3 amended: for the four numeric operators, when either operand
fails `float()` coercion, `_evaluate_operator` propagates the
exception (`TypeError`/`ValueError`) — the evaluation raises rather
than yielding condition-false. -/
theorem C3_numeric_coercion_raises (op : String) (actual expected : Value)
    (hop : op = "greaterThan" ∨ op = "lessThan" ∨ op = "greaterThanOrEqual"
      ∨ op = "lessThanOrEqual")
    (hfail : (∃ e, pyFloatOf actual = .error e) ∨ (∃ e, pyFloatOf expected = .error e)) :
    ∃ e, evaluate_operator (Option.some op) actual expected = .error e := by
  rcases hfail with ⟨e1, he⟩ | ⟨e1, he⟩
  · rcases hop with h | h | h | h <;> subst h <;>
      exact ⟨e1, by simp [evaluate_operator, he]⟩
  · cases ha : pyFloatOf actual with
    | error e2 =>
      rcases hop with h | h | h | h <;> subst h <;>
        exact ⟨e2, by simp [evaluate_operator, ha]⟩
    | ok q =>
      rcases hop with h | h | h | h <;> subst h <;>
        exact ⟨e1, by simp [evaluate_operator, ha, he]⟩

/-- C3 witness: the amended theorem at `greaterThan` with a `None`
actual operand. -/
theorem C3_numeric_coercion_raises_witness :
    ∃ e, evaluate_operator (Option.some "greaterThan") Value.none (.int 5) = .error e :=
  C3_numeric_coercion_raises "greaterThan" Value.none (.int 5)
    (Or.inl rfl) (Or.inl ⟨PyExc.typeError, rfl⟩)

/-- C10: a condition that names none of the three sources evaluates
its operator against a null actual value, without raising, for the
non-numeric operators: `exists` yields false, `equals`/`notEquals`
compare the (substituted) expected value against null. -/
theorem C10_sourceless_condition (st : ExecState) (c : Condition)
    (hn : truthyKey c.node = false) (hv : truthyKey c.variable_ = false)
    (hi : truthyKey c.input = false) :
    (c.operator = Option.some "exists" →
        evalCondition st c = .ok (false, (condExpected st c).2))
    ∧ (c.operator = Option.some "equals" →
        evalCondition st c =
          .ok (pyEq Value.none (condExpected st c).1, (condExpected st c).2))
    ∧ (c.operator = Option.some "notEquals" →
        evalCondition st c =
          .ok (!pyEq Value.none (condExpected st c).1, (condExpected st c).2)) := by
  refine ⟨?_, ?_, ?_⟩ <;> intro hop <;>
    simp [evalCondition, hn, hv, hi, hop, finishCond, evaluate_operator, isNoneV]

/-- C10 witness: a sourceless `exists` condition yields false on the
default state. -/
theorem C10_sourceless_condition_witness :
    evalCondition {} { operator := Option.some "exists" } =
      .ok (false, (condExpected {} { operator := Option.some "exists" }).2) :=
  (C10_sourceless_condition {} { operator := Option.some "exists" } rfl rfl rfl).1 rfl

/-- C5: when the combined validation list (default validations unless
skipped, then node validations) is empty, `validate_response` checks
exactly the synthesized `httpStatusCode: 200` expectation: no errors
when `_status_code` equals 200, and exactly the status-mismatch error
otherwise. -/
theorem C5_empty_validations_default_200 (st : ExecState) (node : Node)
    (rsp : ValueDict)
    (hempty : (if node.skipDefaultValidations then [] else st.defaults.validations)
      ++ node.validations = []) :
    validate_response st node rsp =
      .ok ((if pyEq ((dictFind "_status_code" rsp).getD Value.none) (.int 200)
        then []
        else ["HTTP status validation failed: expected " ++ pyStr (Value.int 200)
          ++ ", got " ++ pyStr ((dictFind "_status_code" rsp).getD Value.none)]), st) := by
  unfold validate_response collectValidations
  rw [hempty]
  cases hpq : pyEq ((dictFind "_status_code" rsp).getD Value.none) (Value.int 200) with
  | true =>
    simp [validateLoop, validateOne, statusCheck, fieldCheck, dictHas, dictFind, hpq]
  | false =>
    simp [validateLoop, validateOne, statusCheck, fieldCheck, dictHas, dictFind, hpq]

/-- C5 witness: a node and defaults with no validations against a 404
response produce exactly the synthesized status error (the run fails). -/
theorem C5_empty_validations_default_200_witness :
    validate_response {} {} (.cons "_status_code" (.int 404) .nil) =
      .ok (["HTTP status validation failed: expected " ++ pyStr (Value.int 200)
        ++ ", got " ++ pyStr (Value.int 404)], {}) := by
  have h := C5_empty_validations_default_200 {} {} (.cons "_status_code" (.int 404) .nil) rfl
  rw [show pyEq ((dictFind "_status_code"
      (ValueDict.cons "_status_code" (.int 404) .nil)).getD Value.none)
      (Value.int 200) = false from rfl] at h
  simpa using h

/-- A state exercising substitution order: the global variable `x`
expands to a response reference, which only resolves if the vars pass
runs before the responses pass. -/
def subOrderState : ExecState :=
  { vars := [("x", .str ("\x7b\x7b .responses.a.y \x7d\x7d"))],
    responses := [("a", .dict (.cons "y" (.str "Z") .nil))] }

/-- C7: the string case of `substitute_variables` applies its four
passes in the fixed order dynamic placeholders (guid then timestamp),
global variables, user input, response references, each pass finishing
before the next starts (first conjunct); a call with no passed
timestamp first draws one from the clock and then behaves identically
(second conjunct).  The remaining conjuncts show the order is observable: a vars
value containing a response reference resolves to `Z`, while running
the responses pass before the vars pass leaves the reference as
literal text. -/
theorem C7_substitution_pass_order :
    (∀ (st : ExecState) (t : Int) (s : String),
        substituteStr st (Option.some t) s =
          (String.mk (respPass (subGuid st s.data).2
            (inputPass ((subGuid st s.data).2).user_inputs
              (varsPass ((subGuid st s.data).2).vars (tsPass t (subGuid st s.data).1)))),
            (subGuid st s.data).2))
    ∧ (∀ (st : ExecState) (s : String),
        substituteStr st Option.none s =
          substituteStr { st with clockIdx := st.clockIdx + 1 }
            (Option.some (st.clock st.clockIdx)) s)
    ∧ (substituteStr subOrderState Option.none ("\x7b\x7b .vars.x \x7d\x7d")).1 = "Z"
    ∧ String.mk (varsPass subOrderState.vars
        (respPass subOrderState ("\x7b\x7b .vars.x \x7d\x7d").data))
        = "\x7b\x7b .responses.a.y \x7d\x7d"
    ∧ ("Z" : String) ≠ "\x7b\x7b .responses.a.y \x7d\x7d" :=
  ⟨fun _ _ _ => rfl, fun _ _ => rfl, rfl, rfl, by decide⟩

/-- A node whose url and body both carry `$timestamp` placeholders
(the body in two separate string leaves). -/
def tsNode : Node :=
  { url := "http://h/\x7b\x7b $timestamp \x7d\x7d",
    body := .dict (.cons "t1" (.str ("\x7b\x7b $timestamp \x7d\x7d"))
      (.cons "t2" (.str ("\x7b\x7b $timestamp \x7d\x7d")) .nil)) }

/-- C1: evaluation at the failing input.  Within one string all
`$timestamp` occurrences share one value (first conjunct), but across
the three build calls of one node each string leaf draws its own
timestamp: with a clock ticking 0,1,2,... the url gets `0` while the
two body fields get `1` and `2` — three different values for one node,
contradicting the claimed single per-node timestamp. -/
theorem C1_per_node_timestamp_bug :
    (substituteStr tickState Option.none
        ("\x7b\x7b $timestamp \x7d\x7d-\x7b\x7b $timestamp \x7d\x7d")).1 = "0-0"
    ∧ (build_url tickState tsNode).1 = "http://h/0"
    ∧ (build_body (build_headers (build_url tickState tsNode).2 tsNode).2 tsNode).1
        = Option.some ("\x7b\"t1\": \"1\", \"t2\": \"2\"\x7d") :=
  ⟨rfl, rfl, rfl⟩

/-- A validation entry carrying a `notEquals` operator, and a response
whose field satisfies the notEquals relation (`ok` differs from
`error`). -/
def notEqualsNode : Node :=
  { validations := [ValueDict.cons "field" (.str "status")
      (.cons "operator" (.str "notEquals") (.cons "value" (.str "error") .nil))] }

/-- The 200 response whose body field `status` is `ok`. -/
def okStatusRsp : ValueDict :=
  .cons "_status_code" (.int 200)
    (.cons "body" (.dict (.cons "status" (.str "ok") .nil)) .nil)

/-- C4: evaluation at the failing input.  The extracted value `ok`
differs from the expected `error`, so the `notEquals` relation holds
and the claim demands no validation error; but `validate_response`
never reads the `operator` key and applies equality, reporting an
error. -/
theorem C4_validation_operator_ignored :
    (∃ st2, validate_response {} notEqualsNode okStatusRsp =
        .ok (["Field validation failed for status: expected error, got ok"], st2))
    ∧ pyEq (.str "ok") (.str "error") = false :=
  ⟨⟨_, rfl⟩, rfl⟩

/-- A form-urlencoded node with a mapping body. -/
def formNode : Node :=
  { bodyFormat := .str "form-urlencoded",
    body := .dict (.cons "a" (.str "b") .nil) }

/-- C8: evaluation at the failing input.  `build_body` JSON-encodes
the mapping body of a node whose `bodyFormat` is form-urlencoded —
nothing in the executor reads `bodyFormat`, so the promised
form-urlencoded encoding (`a=b`) never happens. -/
theorem C8_bodyFormat_ignored :
    (∃ st2, build_body {} formNode = (Option.some ("\x7b\"a\": \"b\"\x7d"), st2))
    ∧ formNode.bodyFormat = .str "form-urlencoded"
    ∧ ("\x7b\"a\": \"b\"\x7d" : String) ≠ "a=b" :=
  ⟨⟨_, rfl⟩, rfl, by decide⟩

end FlowSphere
